import Mathlib

/-!
Shallow embedding of `DQMStreamerReader`
(src/IOPool/DQMStreamer/plugins/DQMStreamerReader.cc).

The reader tails a run directory that fills with streamer files, one or
more per lumisection, and pumps their event records to a consumer.  We
embed the reader's state machine faithfully:

* `prepareStep` is one iteration of the `for (;;)` loop in
  `DQMStreamerReader::prepareNextEvent`, branch for branch and in the
  source's order.
* `prepareNextEvent` iterates `prepareStep` with explicit fuel (the real
  loop can block forever waiting for data, so fuel exhaustion is
  represented by a dedicated `spin` result, distinct from a genuine
  return).
* `openNextFile`, `openFile`, `closeFile`, `getHeaderMsg`, `getEventMsg`,
  `skipLoop` (the loop body of `DQMStreamerReader::skip`), `resetLoop` and
  `fastForward` (the two loops of `DQMStreamerReader::reset_`) mirror the
  corresponding member functions.

External collaborators that are part of the repository but not in scope
(DQMFileIterator, StreamerInputFile, EventSkipperByID) are modelled from
the spec: the file iterator is a FIFO queue of lumi entries plus a
monotone OPEN/EOR flag, the streamer file yields its header record and
then successive event records until exhaustion, and the skipper is an
optional boolean predicate on (run, lumi, event).

Observables recorded in the state so that temporal claims become
statements about reachable states: `readTrace` (every event record
returned by `getEventMsg`), `openTrace` (every path passed to
`openFile_`), `deleted` (every path passed to `unlink`).
-/

deriving instance DecidableEq for Except

namespace DQMStreamer

/-- An event record of a streamer file (run / lumi / event id), as used by
`EventMsgView::run()`, `lumi()`, `event()`. -/
structure EventMsg where
  run : Nat
  lumi : Nat
  event : Nat
deriving DecidableEq, Repr

/-- Message-type code of the structural (INIT) header record,
`Header::INIT` of the streamer message protocol.  Modelled from the spec:
the exact numeric value of the external framing collaborator's enum is
irrelevant here; only equality with it is ever tested. -/
def headerINIT : Nat := 1

/-- Contents of one physical streamer data file: the message code of its
first record, followed by its event records. -/
structure FileContent where
  headerCode : Nat
  events : List EventMsg
deriving DecidableEq, Repr

/-- The filesystem visible to the reader: an association of paths to file
contents.  `boost::filesystem::exists` is lookup success. -/
abbrev FS := List (String × FileContent)

/-- `boost::filesystem::exists(p)` on the modelled filesystem. -/
def fsExists (fs : FS) (p : String) : Bool :=
  (List.lookup p fs).isSome

/-- One queued lumisection entry of the file iterator
(`DQMFileIterator::LumiEntry`): its lumi number and the data-file path
that `make_path_data` derives for it. -/
structure LumiEntry where
  ls : Nat
  path : String
deriving DecidableEq, Repr

/-- Run-level state of the file iterator (`DQMFileIterator::State`):
`OPEN` while the run may still grow, `EOR` once the end-of-run marker has
been observed.  Modelled from the spec: the transition OPEN → EOR happens
at most once and is never undone. -/
inductive FState where
  | OPEN
  | EOR
deriving DecidableEq, Repr

/-- The currently open streamer file (`streamReader_` when non-null):
its path, the header code of its first record, and the event records not
yet consumed by `next()`. -/
structure OpenFile where
  path : String
  headerCode : Nat
  events : List EventMsg
deriving DecidableEq, Repr

/-- The reader's mutable state: the open file (if any), the file
iterator's queue and run-level flag, the per-lumi processed-event counter
(`processedEventPerLs_`, a C++ `int`), and three observables — the events
handed out by `getEventMsg`, the paths opened by `openFile_`, and the
paths passed to `unlink`. -/
structure ReaderState where
  streamReader : Option OpenFile
  queue : List LumiEntry
  fstate : FState
  processedEventPerLs : Int
  readTrace : List EventMsg
  openTrace : List String
  deleted : List String
deriving DecidableEq, Repr

/-- Configuration options of the reader relevant to the pump
(`minEventsPerLumi`, `skipFirstLumis`, `endOfRunKills`,
`deleteDatFiles`), plus the optional external skip predicate
(`EventSkipperByID`, modelled from the spec as a boolean predicate on the
event record). -/
structure Config where
  minEventsPerLs : Int
  flagSkipFirstLumis : Bool
  flagEndOfRunKills : Bool
  flagDeleteDatFiles : Bool
  skipper : Option (EventMsg → Bool)

/-- `eventSkipperByID_ && eventSkipperByID_->skipIt(run, lumi, event)`. -/
def Config.skipIt (cfg : Config) (e : EventMsg) : Bool :=
  match cfg.skipper with
  | some f => f e
  | none => false

/-- A fatal exception (`edm::Exception`): its category and its message
text. -/
structure PErr where
  category : String
  msg : String
deriving DecidableEq, Repr

/-- `DQMStreamerReader::closeFile_`: drop the open reader, if any. -/
def closeFile (s : ReaderState) : ReaderState :=
  { s with streamReader := none }

/-- `DQMStreamerReader::getHeaderMsg`, applied to the code of the first
record of the open file: the INIT view on success, the thrown
`FileReadError` exception otherwise. -/
def getHeaderMsg (code : Nat) : Except PErr Nat :=
  if code ≠ headerINIT then
    .error { category := "FileReadError"
             msg := "received wrong message type: expected INIT, got " ++ toString code }
  else
    .ok code

/-- `DQMStreamerReader::openFile_(p)` where the file at `p` has content
`c`: reset the per-lumi counter, attach a fresh reader, validate the
header (propagating the exception on mismatch), and — if
`deleteDatFiles` is configured — `unlink` the file right there. -/
def openFile (cfg : Config) (p : String) (c : FileContent) (s : ReaderState) :
    Except PErr ReaderState :=
  match getHeaderMsg c.headerCode with
  | .error e => .error e
  | .ok _ =>
    if cfg.flagDeleteDatFiles then
      .ok { s with processedEventPerLs := 0
                   streamReader := some { path := p, headerCode := c.headerCode, events := c.events }
                   openTrace := s.openTrace ++ [p]
                   deleted := s.deleted ++ [p] }
    else
      .ok { s with processedEventPerLs := 0
                   streamReader := some { path := p, headerCode := c.headerCode, events := c.events }
                   openTrace := s.openTrace ++ [p] }

/-- `DQMStreamerReader::openNextFile_`: close the current file, pop the
front lumi entry, and only then test whether its data file exists; open
it if so, log-and-skip otherwise.  Returns the C++ `bool` result next to
the updated state. -/
def openNextFile (cfg : Config) (fs : FS) (s : ReaderState) :
    Except PErr (Bool × ReaderState) :=
  match s.queue with
  | [] => .ok (false, closeFile s)
  | e :: rest =>
    match List.lookup e.path fs with
    | some c =>
      match openFile cfg e.path c { closeFile s with queue := rest } with
      | .error err => .error err
      | .ok s2 => .ok (true, s2)
    | none => .ok (false, { closeFile s with queue := rest })

/-- `DQMStreamerReader::getEventMsg` on the open file: `none` at end of
file, otherwise the next event record and the advanced reader. -/
def getEventMsg (f : OpenFile) : Option (EventMsg × OpenFile) :=
  match f.events with
  | [] => none
  | e :: rest => some (e, { f with events := rest })

/-- Outcome of one iteration of the wait loop in `prepareNextEvent`:
the function returned (`ret`, with `none` for the end-of-stream
`nullptr`), the loop continues (`cont`, covering both `continue` and the
`delay_()` branch), or an exception escaped (`fail`). -/
inductive StepOut where
  | ret (ev : Option EventMsg) (s : ReaderState)
  | cont (s : ReaderState)
  | fail (e : PErr)
deriving DecidableEq, Repr

/-- One iteration of the `for (;;)` loop of
`DQMStreamerReader::prepareNextEvent`, with the source's checks in the
source's order: end-of-run kill, clean end-of-run exit, open-next when no
file is open, threshold rotation, then delay or event read. -/
def prepareStep (cfg : Config) (fs : FS) (s : ReaderState) : StepOut :=
  if cfg.flagEndOfRunKills ∧ s.fstate ≠ FState.OPEN then
    .ret none (closeFile s)
  else if s.streamReader = none ∧ s.queue = [] ∧ s.fstate = FState.EOR then
    .ret none (closeFile s)
  else if s.streamReader = none ∧ s.queue ≠ [] then
    match openNextFile cfg fs s with
    | .error e => .fail e
    | .ok (_, s1) => .cont s1
  else if s.queue ≠ [] ∧ s.processedEventPerLs > cfg.minEventsPerLs then
    match openNextFile cfg fs s with
    | .error e => .fail e
    | .ok (_, s1) => .cont s1
  else
    match s.streamReader with
    | none => .cont s
    | some f =>
      match getEventMsg f with
      | none => .cont (closeFile s)
      | some (e, f1) =>
        .ret (some e)
          { s with streamReader := some f1, readTrace := s.readTrace ++ [e] }

/-- Result of a full `prepareNextEvent` call: an event, the end-of-stream
`nullptr`, a propagated exception, or fuel exhaustion (`spin`) standing
for the real loop still running. -/
inductive PrepResult where
  | ev (e : EventMsg) (s : ReaderState)
  | eos (s : ReaderState)
  | fail (e : PErr)
  | spin (s : ReaderState)
deriving DecidableEq, Repr

/-- `DQMStreamerReader::prepareNextEvent`: iterate `prepareStep` until it
returns, for at most `fuel` iterations. -/
def prepareNextEvent (cfg : Config) (fs : FS) : Nat → ReaderState → PrepResult
  | 0, s => .spin s
  | fuel + 1, s =>
    match prepareStep cfg fs s with
    | .ret none s1 => .eos s1
    | .ret (some e) s1 => .ev e s1
    | .cont s1 => prepareNextEvent cfg fs fuel s1
    | .fail e => .fail e

/-- Result of `DQMStreamerReader::skip`: normal return, a propagated
exception, or fuel exhaustion. -/
inductive SkipResult where
  | done (s : ReaderState)
  | fail (e : PErr)
  | spin (s : ReaderState)
deriving DecidableEq, Repr

/-- The loop of `DQMStreamerReader::skip`: `for (int i = 0; i != toSkip;
++i)` fetching one event per iteration, returning at end of stream, and
decrementing `i` back when the external skip predicate would have
filtered the event anyway.  `pfuel` bounds each inner `prepareNextEvent`
call and `fuel` bounds the number of loop iterations. -/
def skipLoop (cfg : Config) (fs : FS) (pfuel : Nat) :
    Nat → Int → Int → ReaderState → SkipResult
  | 0, _, _, s => .spin s
  | fuel + 1, i, toSkip, s =>
    if i = toSkip then .done s
    else
      match prepareNextEvent cfg fs pfuel s with
      | .ev e s1 =>
        skipLoop cfg fs pfuel fuel (if cfg.skipIt e then i else i + 1) toSkip s1
      | .eos s1 => .done s1
      | .fail err => .fail err
      | .spin s1 => .spin s1

/-- `DQMStreamerReader::skip(toSkip)`: run the loop from `i = 0`. -/
def skip (cfg : Config) (fs : FS) (pfuel fuel : Nat) (toSkip : Int)
    (s : ReaderState) : SkipResult :=
  skipLoop cfg fs pfuel fuel 0 toSkip s

/-- Result of the first loop of `DQMStreamerReader::reset_`: a file was
opened, an exception escaped, or fuel ran out (the loop waits forever for
a first file). -/
inductive ResetOut where
  | opened (s : ReaderState)
  | fail (e : PErr)
  | spin (s : ReaderState)
deriving DecidableEq, Repr

/-- The first loop of `DQMStreamerReader::reset_`: wait (`delay_`) until
the iterator has a next entry, then `openNextFile_` and stop as soon as
one open succeeds. -/
def resetLoop (cfg : Config) (fs : FS) : Nat → ReaderState → ResetOut
  | 0, s => .spin s
  | fuel + 1, s =>
    if s.queue = [] then resetLoop cfg fs fuel s
    else
      match openNextFile cfg fs s with
      | .error e => .fail e
      | .ok (true, s1) => .opened s1
      | .ok (false, s1) => resetLoop cfg fs fuel s1

/-- The fast-forward loop of `DQMStreamerReader::reset_`:
`while (fiterator_.hasNext()) openNextFile_();` — the boolean result of
each open is discarded.  Each iteration pops one entry, so the queue
length bounds the iteration count. -/
def fastForward (cfg : Config) (fs : FS) : Nat → ReaderState → Except PErr ReaderState
  | 0, s => .ok s
  | fuel + 1, s =>
    if s.queue = [] then .ok s
    else
      match openNextFile cfg fs s with
      | .error e => .error e
      | .ok (_, s1) => fastForward cfg fs fuel s1

/-- `DQMStreamerReader::reset_` after `fiterator_.initialise`: open a
first file, then — if `skipFirstLumis` is configured — fast-forward
through every queued entry. -/
def reset (cfg : Config) (fs : FS) (fuel : Nat) (s : ReaderState) : ResetOut :=
  match resetLoop cfg fs fuel s with
  | .opened s1 =>
    if cfg.flagSkipFirstLumis then
      match fastForward cfg fs s1.queue.length s1 with
      | .error e => .fail e
      | .ok s2 => .opened s2
    else .opened s1
  | r => r

/-- Result of `DQMStreamerReader::checkNextEvent`: the C++ `bool` next to
the updated state, or a propagated exception / fuel exhaustion. -/
inductive CheckOut where
  | ret (b : Bool) (s : ReaderState)
  | fail (e : PErr)
  | spin (s : ReaderState)
deriving DecidableEq, Repr

/-- `DQMStreamerReader::checkNextEvent`: fetch the next event; `false` at
end of stream; otherwise bump the per-lumi counter and deserialize
(deserialization itself is an external collaborator and has no state in
this model). -/
def checkNextEvent (cfg : Config) (fs : FS) (pfuel : Nat) (s : ReaderState) : CheckOut :=
  match prepareNextEvent cfg fs pfuel s with
  | .eos s1 => .ret false s1
  | .ev _ s1 => .ret true { s1 with processedEventPerLs := s1.processedEventPerLs + 1 }
  | .fail e => .fail e
  | .spin s1 => .spin s1

/-- A filesystem is well formed when every file on it starts with an INIT
header record — the normal situation the wait loop is designed for. -/
def GoodFS (fs : FS) : Prop :=
  ∀ p c, (p, c) ∈ fs → c.headerCode = headerINIT

instance (fs : FS) : Decidable (GoodFS fs) := by
  unfold GoodFS
  induction fs with
  | nil => exact isTrue (by intro p c h; cases h)
  | cons hd tl ih =>
    cases ih with
    | isTrue htl =>
      cases Nat.decEq hd.2.headerCode headerINIT with
      | isTrue hh =>
        refine isTrue ?_
        intro p c h
        cases h with
        | head => exact hh
        | tail _ hm => exact htl p c hm
      | isFalse hh =>
        refine isFalse ?_
        intro hall
        exact hh (hall hd.1 hd.2 (List.mem_cons_self _ _))
    | isFalse htl =>
      refine isFalse ?_
      intro hall
      exact htl fun p c h => hall p c (List.mem_cons_of_mem _ h)

/-! ## Helper lemmas -/

theorem closeFile_of_none {s : ReaderState} (h : s.streamReader = none) :
    closeFile s = s := by
  obtain ⟨sr, q, fst, pc, rt, ot, dl⟩ := s
  have h2 : sr = none := h
  subst h2
  rfl

theorem closeFile_streamReader (s : ReaderState) :
    (closeFile s).streamReader = none := rfl

/-- A successful association-list lookup on the modelled filesystem is a
membership. -/
theorem lookup_mem_fs (p : String) (c : FileContent) :
    ∀ fs : FS, List.lookup p fs = some c → (p, c) ∈ fs := by
  intro fs
  induction fs with
  | nil => intro h; cases h
  | cons hd tl ih =>
    intro h
    obtain ⟨k, v⟩ := hd
    simp only [List.lookup] at h
    cases hpk : (p == k) with
    | true =>
      rw [hpk] at h
      have hp : p = k := eq_of_beq hpk
      have hv : v = c := Option.some.inj h
      subst hp
      subst hv
      exact List.mem_cons_self _ _
    | false =>
      rw [hpk] at h
      exact List.mem_cons_of_mem _ (ih h)

/-- Under a well-formed filesystem `openNextFile_` never throws: every
file it can open starts with an INIT record. -/
theorem openNextFile_isOk (cfg : Config) (fs : FS) (s : ReaderState)
    (hgood : GoodFS fs) :
    (openNextFile cfg fs s).isOk = true := by
  obtain ⟨sr, q, fst, pc, rt, ot, dl⟩ := s
  cases q with
  | nil => rfl
  | cons e rest =>
    cases hl : List.lookup e.path fs with
    | none => simp [openNextFile, hl, Except.isOk, Except.toBool]
    | some c =>
      have hinit : c.headerCode = headerINIT := hgood e.path c (lookup_mem_fs _ _ _ hl)
      cases hdel : cfg.flagDeleteDatFiles <;>
        simp [openNextFile, openFile, getHeaderMsg, hl, hinit, hdel,
              Except.isOk, Except.toBool]

/-- `openNextFile_` on a front entry whose data file is missing: the
current file is closed, the entry is consumed, and `false` is returned. -/
theorem openNextFile_missing (cfg : Config) (fs : FS) (s : ReaderState)
    (e : LumiEntry) (rest : List LumiEntry)
    (hq : s.queue = e :: rest)
    (hmiss : List.lookup e.path fs = none) :
    openNextFile cfg fs s =
      .ok (false, { s with streamReader := none, queue := rest }) := by
  obtain ⟨sr, q, fst2, pc, rt, ot, dl⟩ := s
  have hq2 : q = e :: rest := hq
  subst hq2
  simp [openNextFile, closeFile, hmiss]

/-- `openNextFile_` on a front entry whose data file exists and starts
with an INIT record: the file is opened with the counter reset; the
`deleted` trace depends on the `deleteDatFiles` flag and is left
existential. -/
theorem openNextFile_found (cfg : Config) (fs : FS) (s : ReaderState)
    (e : LumiEntry) (rest : List LumiEntry) (c : FileContent)
    (hq : s.queue = e :: rest)
    (hl : List.lookup e.path fs = some c)
    (hinit : c.headerCode = headerINIT) :
    ∃ dl2, openNextFile cfg fs s = .ok (true,
      { s with streamReader :=
                 some { path := e.path, headerCode := c.headerCode, events := c.events },
               queue := rest, processedEventPerLs := 0,
               openTrace := s.openTrace ++ [e.path], deleted := dl2 }) := by
  obtain ⟨sr, q, fst2, pc, rt, ot, dl⟩ := s
  have hq2 : q = e :: rest := hq
  subst hq2
  cases hdel : cfg.flagDeleteDatFiles with
  | false =>
    exact ⟨dl, by simp [openNextFile, openFile, getHeaderMsg, closeFile, hl, hinit, hdel]⟩
  | true =>
    exact ⟨dl ++ [e.path],
      by simp [openNextFile, openFile, getHeaderMsg, closeFile, hl, hinit, hdel]⟩

/-- `openNextFile_` on a found INIT file with `deleteDatFiles = false`:
the exact resulting state. -/
theorem openNextFile_found_nodelete (cfg : Config) (fs : FS) (s : ReaderState)
    (e : LumiEntry) (rest : List LumiEntry) (c : FileContent)
    (hq : s.queue = e :: rest)
    (hl : List.lookup e.path fs = some c)
    (hinit : c.headerCode = headerINIT)
    (hdel : cfg.flagDeleteDatFiles = false) :
    openNextFile cfg fs s = .ok (true,
      { s with streamReader :=
                 some { path := e.path, headerCode := c.headerCode, events := c.events },
               queue := rest, processedEventPerLs := 0,
               openTrace := s.openTrace ++ [e.path] }) := by
  obtain ⟨sr, q, fst2, pc, rt, ot, dl⟩ := s
  have hq2 : q = e :: rest := hq
  subst hq2
  simp [openNextFile, openFile, getHeaderMsg, closeFile, hl, hinit, hdel]

/-- The wait-loop iteration in the reading configuration: no kill, a file
open, and the threshold-rotation condition false — the iteration reads
from the open file. -/
theorem prepareStep_read (cfg : Config) (fs : FS) (s : ReaderState) (f : OpenFile)
    (hkill : ¬(cfg.flagEndOfRunKills = true ∧ s.fstate ≠ FState.OPEN))
    (hopen : s.streamReader = some f)
    (hnorot : ¬(s.queue ≠ [] ∧ s.processedEventPerLs > cfg.minEventsPerLs)) :
    prepareStep cfg fs s =
      match getEventMsg f with
      | none => .cont (closeFile s)
      | some (e, f1) =>
        .ret (some e) { s with streamReader := some f1, readTrace := s.readTrace ++ [e] } := by
  have cond2 : ¬(s.streamReader = none ∧ s.queue = [] ∧ s.fstate = FState.EOR) := by
    rw [hopen]; rintro ⟨h, _⟩; cases h
  have cond3 : ¬(s.streamReader = none ∧ s.queue ≠ []) := by
    rw [hopen]; rintro ⟨h, _⟩; cases h
  unfold prepareStep
  rw [if_neg hkill, if_neg cond2, if_neg cond3, if_neg hnorot, hopen]

/-- The wait-loop iteration in the advance configuration: no kill, no
file open, entries queued — the iteration calls `openNextFile_` and
continues. -/
theorem prepareStep_openNext (cfg : Config) (fs : FS) (s : ReaderState)
    (hkill : ¬(cfg.flagEndOfRunKills = true ∧ s.fstate ≠ FState.OPEN))
    (hopen : s.streamReader = none)
    (hq : s.queue ≠ []) :
    prepareStep cfg fs s =
      match openNextFile cfg fs s with
      | .error e => .fail e
      | .ok (_, s1) => .cont s1 := by
  have cond2 : ¬(s.streamReader = none ∧ s.queue = [] ∧ s.fstate = FState.EOR) := by
    rintro ⟨_, h2, _⟩; exact hq h2
  unfold prepareStep
  rw [if_neg hkill, if_neg cond2, if_pos ⟨hopen, hq⟩]

/-- One unfolding of the wait loop: a continuing iteration costs one unit
of fuel. -/
theorem prepareNextEvent_succ (cfg : Config) (fs : FS) (fuel : Nat)
    (s : ReaderState) :
    prepareNextEvent cfg fs (fuel + 1) s =
      match prepareStep cfg fs s with
      | .ret none s1 => .eos s1
      | .ret (some e) s1 => .ev e s1
      | .cont s1 => prepareNextEvent cfg fs fuel s1
      | .fail e => .fail e := rfl

/-- One unfolding of the wait loop: a continuing iteration costs one unit
of fuel. -/
theorem prepareNextEvent_cont (cfg : Config) (fs : FS) (fuel : Nat)
    (s s1 : ReaderState) (h : prepareStep cfg fs s = .cont s1) :
    prepareNextEvent cfg fs (fuel + 1) s = prepareNextEvent cfg fs fuel s1 := by
  rw [prepareNextEvent_succ, h]

/-- One unfolding of the wait loop: an iteration that returns an event. -/
theorem prepareNextEvent_ev (cfg : Config) (fs : FS) (fuel : Nat)
    (s s1 : ReaderState) (e : EventMsg)
    (h : prepareStep cfg fs s = .ret (some e) s1) :
    prepareNextEvent cfg fs (fuel + 1) s = .ev e s1 := by
  rw [prepareNextEvent_succ, h]

/-- One unfolding of the wait loop: an iteration that returns the
end-of-stream `nullptr`. -/
theorem prepareNextEvent_eosStep (cfg : Config) (fs : FS) (fuel : Nat)
    (s s1 : ReaderState) (h : prepareStep cfg fs s = .ret none s1) :
    prepareNextEvent cfg fs (fuel + 1) s = .eos s1 := by
  rw [prepareNextEvent_succ, h]

/-! ## Fixtures used by the concrete theorems -/

/-- Event record with a given event id, in run 1 / lumi 1. -/
def evA (n : Nat) : EventMsg := { run := 1, lumi := 1, event := n }

/-- Configuration with everything switched off and no skip predicate. -/
def plainCfg : Config :=
  { minEventsPerLs := 1, flagSkipFirstLumis := false, flagEndOfRunKills := false,
    flagDeleteDatFiles := false, skipper := none }

/-! ## C1 — deleteDatFiles unlinks at open, before EndOfFile -/

/-- Path of the single data file of the C1 scenario. -/
def pathC1 : String := "run316058/run316058_ls0001_streamDQM.dat"

/-- Filesystem of the C1 scenario: one streamer file with a valid INIT
header and one event record. -/
def fsC1 : FS := [(pathC1, { headerCode := headerINIT, events := [evA 1] })]

/-- Configuration of the C1 scenario: `deleteDatFiles = true`. -/
def cfgC1 : Config := { plainCfg with flagDeleteDatFiles := true }

/-- Reader state of the C1 scenario: nothing open, the file's lumi entry
queued, run still live. -/
def stC1 : ReaderState :=
  { streamReader := none, queue := [{ ls := 1, path := pathC1 }],
    fstate := FState.OPEN, processedEventPerLs := 0,
    readTrace := [], openTrace := [], deleted := [] }

/-- The reader state right after `openNextFile_` in the C1 scenario. -/
def stC1res : ReaderState :=
  { streamReader := some { path := pathC1, headerCode := headerINIT, events := [evA 1] },
    queue := [], fstate := FState.OPEN, processedEventPerLs := 0,
    readTrace := [], openTrace := [pathC1], deleted := [pathC1] }

/-- Claim C1 is violated by the code: with `deleteDatFiles = true`,
`openFile_` calls `unlink` on the data file immediately after reading its
header — here the file is already on the `deleted` list while its one
event record is still unread (`readTrace = []`, the open reader still
holds the full event list), i.e. the physical file is removed from disk
strictly BEFORE EndOfFile is observed, not strictly after.  This
contradicts the option's own description in `fillDescriptions`
("Delete data files after they have been closed"). -/
theorem c1_unlink_at_open_before_eof :
    openNextFile cfgC1 fsC1 stC1 = .ok (true, stC1res) ∧
    stC1res.deleted = [pathC1] ∧
    stC1res.streamReader =
      some { path := pathC1, headerCode := headerINIT, events := [evA 1] } ∧
    stC1res.readTrace = [] := by
  refine ⟨?_, rfl, rfl, rfl⟩
  decide

/-! ## C2 — endOfRunKills terminates immediately -/

/-- Claim C2: with `endOfRunKills = true`, as soon as the iterator's
run-level state is no longer `OPEN` and no file is open, the very first
check of the wait loop returns the end-of-stream `nullptr` — with the
state unchanged (in particular the queued lumisections in `s.queue` are
not drained and `readTrace` does not grow), for any remaining fuel, and
as an `eos` result rather than a thrown exception. -/
theorem c2_endOfRunKills_clean_eos
    (cfg : Config) (fs : FS) (s : ReaderState)
    (hkill : cfg.flagEndOfRunKills = true)
    (hst : s.fstate ≠ FState.OPEN)
    (hopen : s.streamReader = none) :
    ∀ fuel : Nat, prepareNextEvent cfg fs (fuel + 1) s = .eos s := by
  intro fuel
  have hstep : prepareStep cfg fs s = .ret none (closeFile s) := by
    unfold prepareStep
    rw [if_pos ⟨hkill, hst⟩]
  unfold prepareNextEvent
  rw [hstep, closeFile_of_none hopen]

/-- Configuration for the C2 witness: `endOfRunKills = true`. -/
def cfgC2 : Config := { plainCfg with flagEndOfRunKills := true }

/-- Reader state for the C2 witness: end of run observed, no file open,
two lumisections still queued. -/
def stC2 : ReaderState :=
  { streamReader := none,
    queue := [{ ls := 7, path := "ls0007.dat" }, { ls := 8, path := "ls0008.dat" }],
    fstate := FState.EOR, processedEventPerLs := 0,
    readTrace := [], openTrace := [], deleted := [] }

/-- Witness for C2 at a concrete state with a non-empty backlog. -/
theorem c2_endOfRunKills_clean_eos_witness :
    cfgC2.flagEndOfRunKills = true ∧ stC2.fstate ≠ FState.OPEN ∧
    stC2.streamReader = none ∧
    prepareNextEvent cfgC2 [] 1 stC2 = .eos stC2 :=
  ⟨rfl, by decide, rfl,
    c2_endOfRunKills_clean_eos cfgC2 [] stC2 rfl (by decide) rfl 0⟩

/-! ## C8 — non-INIT first record is a fatal protocol error -/

/-- Claim C8: `getHeaderMsg` succeeds exactly when the first record's
message code is INIT; otherwise it throws a `FileReadError` whose message
is "received wrong message type: expected INIT, got <code>".  The error
is not retried: an open hitting it makes `openNextFile_` rethrow, and a
failing loop iteration makes `prepareNextEvent` return the failure
immediately instead of iterating further. -/
theorem c8_header_mismatch_fatal :
    (∀ code : Nat,
      (getHeaderMsg code = .ok code ↔ code = headerINIT) ∧
      (∀ err, getHeaderMsg code = .error err →
        err.category = "FileReadError" ∧
        err.msg = "received wrong message type: expected INIT, got " ++ toString code) ∧
      (code ≠ headerINIT → ∃ err, getHeaderMsg code = .error err)) ∧
    (∀ (cfg : Config) (fs : FS) (s : ReaderState) (e : LumiEntry)
        (rest : List LumiEntry) (c : FileContent) (err : PErr),
      s.queue = e :: rest →
      List.lookup e.path fs = some c →
      getHeaderMsg c.headerCode = .error err →
      openNextFile cfg fs s = .error err) ∧
    (∀ (cfg : Config) (fs : FS) (s : ReaderState) (err : PErr) (fuel : Nat),
      prepareStep cfg fs s = .fail err →
      prepareNextEvent cfg fs (fuel + 1) s = .fail err) := by
  refine ⟨?_, ?_, ?_⟩
  · intro code
    by_cases hc : code = headerINIT
    · subst hc
      refine ⟨by simp [getHeaderMsg], ?_, by simp⟩
      intro err herr
      simp [getHeaderMsg] at herr
    · have herr : getHeaderMsg code = .error
          { category := "FileReadError"
            msg := "received wrong message type: expected INIT, got " ++ toString code } := by
        simp only [getHeaderMsg, if_pos hc]
      refine ⟨?_, ?_, fun _ => ⟨_, herr⟩⟩
      · rw [herr]
        exact Iff.intro (fun h => nomatch h) (fun h => absurd h hc)
      · intro err h2
        rw [herr] at h2
        injection h2 with h3
        rw [← h3]
        exact ⟨rfl, rfl⟩
  · intro cfg fs s e rest c err hq hl herr
    obtain ⟨sr, q, fst, pc, rt, ot, dl⟩ := s
    have hq2 : q = e :: rest := hq
    subst hq2
    simp [openNextFile, openFile, hl, herr]
  · intro cfg fs s err fuel hstep
    unfold prepareNextEvent
    rw [hstep]

/-- Witness for C8 at message code 2 (an EVENT record where INIT is
required), propagated through a concrete `openNextFile_` and one loop
iteration of `prepareNextEvent`. -/
theorem c8_header_mismatch_fatal_witness :
    getHeaderMsg 2 =
      .error { category := "FileReadError"
               msg := "received wrong message type: expected INIT, got 2" } ∧
    (getHeaderMsg 2 = .ok 2 ↔ (2 : Nat) = headerINIT) := by
  have h := c8_header_mismatch_fatal
  refine ⟨?_, (h.1 2).1⟩
  obtain ⟨err, herr⟩ := (h.1 2).2.2 (by decide)
  have hm := (h.1 2).2.1 err herr
  rw [herr]
  obtain ⟨cat, m⟩ := err
  simp only at hm
  rw [hm.1, hm.2]
  rfl

/-! ## C9 — advancing past a missing file is not atomic -/

/-- Claim C9: `openNextFile_` closes the currently open file and pops the
front lumi entry before testing whether that entry's data file exists.
When the file is missing the call returns `false` with the previous file
already closed (its unread events gone — `readTrace` has not grown, so
they were never delivered), the missing entry consumed (`queue = rest`)
and no file open. -/
theorem c9_openNextFile_not_atomic
    (cfg : Config) (fs : FS) (s : ReaderState) (f : OpenFile)
    (e : LumiEntry) (rest : List LumiEntry)
    (hopen : s.streamReader = some f)
    (hq : s.queue = e :: rest)
    (hmiss : List.lookup e.path fs = none) :
    openNextFile cfg fs s =
      .ok (false, { s with streamReader := none, queue := rest }) := by
  obtain ⟨sr, q, fst, pc, rt, ot, dl⟩ := s
  have hq2 : q = e :: rest := hq
  subst hq2
  simp [openNextFile, closeFile, hmiss]

/-- Reader state for the C9 witness: a file with two unread events open,
a lumi entry whose data file does not exist queued in front. -/
def stC9 : ReaderState :=
  { streamReader := some { path := "ls0003.dat", headerCode := headerINIT,
                           events := [evA 31, evA 32] },
    queue := [{ ls := 4, path := "ls0004.dat" }, { ls := 5, path := "ls0005.dat" }],
    fstate := FState.OPEN, processedEventPerLs := 2,
    readTrace := [evA 30], openTrace := ["ls0003.dat"], deleted := [] }

/-- Witness for C9: on an empty filesystem the open file (with its two
unread events) is closed and the missing entry is consumed. -/
theorem c9_openNextFile_not_atomic_witness :
    stC9.streamReader =
      some { path := "ls0003.dat", headerCode := headerINIT, events := [evA 31, evA 32] } ∧
    stC9.queue = [{ ls := 4, path := "ls0004.dat" }, { ls := 5, path := "ls0005.dat" }] ∧
    List.lookup "ls0004.dat" ([] : FS) = none ∧
    openNextFile plainCfg [] stC9 =
      .ok (false, { stC9 with streamReader := none,
                              queue := [{ ls := 5, path := "ls0005.dat" }] }) :=
  ⟨rfl, rfl, rfl,
    c9_openNextFile_not_atomic plainCfg [] stC9
      { path := "ls0003.dat", headerCode := headerINIT, events := [evA 31, evA 32] }
      { ls := 4, path := "ls0004.dat" } [{ ls := 5, path := "ls0005.dat" }]
      rfl rfl rfl⟩

/-! ## C3 — threshold rotation uses strict greater-than -/

/-- Claim C3: with a file open whose event list is not yet exhausted (and
`endOfRunKills` off so the kill check cannot fire), one iteration of the
wait loop performs a threshold rotation — it calls `openNextFile_`
(closing the current file, opening the next lumisection's) and continues
— exactly when the lumi index has a next entry AND the per-lumi counter
is strictly greater than `minEventsPerLumi`.  In particular, when the
counter equals `minEventsPerLumi` the iteration does not rotate: it
returns the next event of the current file. -/
theorem c3_rotation_strictly_greater
    (cfg : Config) (fs : FS) (s : ReaderState) (f : OpenFile)
    (hkill : cfg.flagEndOfRunKills = false)
    (hgood : GoodFS fs)
    (hopen : s.streamReader = some f)
    (hne : f.events ≠ []) :
    ((∃ b s1, openNextFile cfg fs s = .ok (b, s1) ∧ prepareStep cfg fs s = .cont s1) ↔
      (s.queue ≠ [] ∧ s.processedEventPerLs > cfg.minEventsPerLs)) ∧
    (s.processedEventPerLs = cfg.minEventsPerLs →
      ∃ e f1, getEventMsg f = some (e, f1) ∧
        prepareStep cfg fs s = .ret (some e)
          { s with streamReader := some f1, readTrace := s.readTrace ++ [e] }) := by
  have hk2 : ¬(cfg.flagEndOfRunKills = true ∧ s.fstate ≠ FState.OPEN) := by
    rw [hkill]; rintro ⟨h, _⟩; simp at h
  by_cases hc : s.queue ≠ [] ∧ s.processedEventPerLs > cfg.minEventsPerLs
  · have hok := openNextFile_isOk cfg fs s hgood
    cases hres : openNextFile cfg fs s with
    | error err =>
      rw [hres] at hok
      simp [Except.isOk, Except.toBool] at hok
    | ok p =>
      obtain ⟨b, s1⟩ := p
      have cond2 : ¬(s.streamReader = none ∧ s.queue = [] ∧ s.fstate = FState.EOR) := by
        rw [hopen]; rintro ⟨h, _⟩; cases h
      have cond3 : ¬(s.streamReader = none ∧ s.queue ≠ []) := by
        rw [hopen]; rintro ⟨h, _⟩; cases h
      have hps : prepareStep cfg fs s = .cont s1 := by
        unfold prepareStep
        rw [if_neg hk2, if_neg cond2, if_neg cond3, if_pos hc, hres]
      refine ⟨⟨fun _ => hc, fun _ => ⟨b, s1, rfl, hps⟩⟩, ?_⟩
      intro heq
      exfalso
      have hgt := hc.2
      rw [heq] at hgt
      exact lt_irrefl _ hgt
  · cases hev : f.events with
    | nil => exact absurd hev hne
    | cons e rest2 =>
      have hgm : getEventMsg f = some (e, { f with events := rest2 }) := by
        simp [getEventMsg, hev]
      have hps : prepareStep cfg fs s = .ret (some e)
          { s with streamReader := some { f with events := rest2 },
                   readTrace := s.readTrace ++ [e] } := by
        rw [prepareStep_read cfg fs s f hk2 hopen hc, hgm]
      refine ⟨⟨?_, fun hcc => absurd hcc hc⟩, ?_⟩
      · rintro ⟨b, s1, _, h2⟩
        rw [hps] at h2
        cases h2
      · intro _
        exact ⟨e, { f with events := rest2 }, hgm, hps⟩

/-- Configuration for the C3 witness: `minEventsPerLumi = 2`. -/
def cfgC3 : Config := { plainCfg with minEventsPerLs := 2 }

/-- Open file for the C3 witness, one unread event left. -/
def fC3 : OpenFile := { path := "a.dat", headerCode := headerINIT, events := [evA 100] }

/-- Filesystem for the C3 witness: the next lumisection's file exists
with a valid INIT header. -/
def fsC3 : FS := [("b.dat", { headerCode := headerINIT, events := [evA 200] })]

/-- Reader state for the C3 witness: 3 events processed this lumi
(strictly above the threshold 2) and a next entry queued. -/
def stC3 : ReaderState :=
  { streamReader := some fC3, queue := [{ ls := 2, path := "b.dat" }],
    fstate := FState.OPEN, processedEventPerLs := 3,
    readTrace := [], openTrace := ["a.dat"], deleted := [] }

/-- Witness for C3: at counter 3 > threshold 2 with a next entry, the
iteration rotates. -/
theorem c3_rotation_strictly_greater_witness :
    cfgC3.flagEndOfRunKills = false ∧ GoodFS fsC3 ∧
    stC3.streamReader = some fC3 ∧ fC3.events ≠ [] ∧
    (∃ b s1, openNextFile cfgC3 fsC3 stC3 = .ok (b, s1) ∧
       prepareStep cfgC3 fsC3 stC3 = .cont s1) :=
  ⟨rfl, by decide, rfl, by decide,
    ((c3_rotation_strictly_greater cfgC3 fsC3 stC3 fC3 rfl (by decide) rfl
        (by decide)).1).mpr (by decide)⟩

/-! ## C7 — a missing data file is skipped, not fatal -/

/-- Claim C7: when the front lumi entry names a data file absent from the
filesystem and the following entry's file exists (INIT header, first
event `ev`), the wait loop pops and skips the missing entry, opens the
next entry's file and returns that file's first event — no exception, no
end-of-stream, and the per-lumi counter shows 0 for the skipped entry
(it was never incremented on its behalf; it is reset by the successful
open of the following entry). -/
theorem c7_missing_file_tolerated
    (cfg : Config) (fs : FS) (s : ReaderState)
    (e1 e2 : LumiEntry) (rest : List LumiEntry) (c2 : FileContent)
    (ev : EventMsg) (evs : List EventMsg)
    (hkill : cfg.flagEndOfRunKills = false)
    (hdel : cfg.flagDeleteDatFiles = false)
    (hmin : 0 ≤ cfg.minEventsPerLs)
    (hsr : s.streamReader = none)
    (hq : s.queue = e1 :: e2 :: rest)
    (hmiss : List.lookup e1.path fs = none)
    (hc2 : List.lookup e2.path fs = some c2)
    (hhdr : c2.headerCode = headerINIT)
    (hevs : c2.events = ev :: evs) :
    prepareNextEvent cfg fs 3 s = .ev ev
      { s with streamReader :=
                 some { path := e2.path, headerCode := c2.headerCode, events := evs },
               queue := rest, processedEventPerLs := 0,
               readTrace := s.readTrace ++ [ev],
               openTrace := s.openTrace ++ [e2.path] } := by
  have hk2 : ¬(cfg.flagEndOfRunKills = true ∧ s.fstate ≠ FState.OPEN) := by
    rw [hkill]; rintro ⟨h, _⟩; simp at h
  have hstep1 : prepareStep cfg fs s =
      .cont { s with streamReader := none, queue := e2 :: rest } := by
    rw [prepareStep_openNext cfg fs s hk2 hsr (by rw [hq]; simp),
        openNextFile_missing cfg fs s e1 (e2 :: rest) hq hmiss]
  have hstep2 : prepareStep cfg fs { s with streamReader := none, queue := e2 :: rest } =
      .cont { s with streamReader :=
                       some { path := e2.path, headerCode := c2.headerCode, events := c2.events },
                     queue := rest, processedEventPerLs := 0,
                     openTrace := s.openTrace ++ [e2.path] } := by
    rw [prepareStep_openNext cfg fs { s with streamReader := none, queue := e2 :: rest }
          hk2 rfl (by simp),
        openNextFile_found_nodelete cfg fs
          { s with streamReader := none, queue := e2 :: rest } e2 rest c2 rfl hc2 hhdr hdel]
  have hnorot : ¬(rest ≠ [] ∧ (0 : Int) > cfg.minEventsPerLs) := by
    rintro ⟨_, h⟩
    omega
  have hgm : getEventMsg { path := e2.path, headerCode := c2.headerCode, events := c2.events } =
      some (ev, { path := e2.path, headerCode := c2.headerCode, events := evs }) := by
    simp [getEventMsg, hevs]
  have hstep3 : prepareStep cfg fs
      { s with streamReader :=
                 some { path := e2.path, headerCode := c2.headerCode, events := c2.events },
               queue := rest, processedEventPerLs := 0,
               openTrace := s.openTrace ++ [e2.path] } =
      .ret (some ev)
        { s with streamReader :=
                   some { path := e2.path, headerCode := c2.headerCode, events := evs },
                 queue := rest, processedEventPerLs := 0,
                 readTrace := s.readTrace ++ [ev],
                 openTrace := s.openTrace ++ [e2.path] } := by
    rw [prepareStep_read cfg fs
          { s with streamReader :=
                     some { path := e2.path, headerCode := c2.headerCode, events := c2.events },
                   queue := rest, processedEventPerLs := 0,
                   openTrace := s.openTrace ++ [e2.path] }
          { path := e2.path, headerCode := c2.headerCode, events := c2.events }
          hk2 rfl hnorot, hgm]
  calc prepareNextEvent cfg fs 3 s
      = prepareNextEvent cfg fs 2 { s with streamReader := none, queue := e2 :: rest } :=
        prepareNextEvent_cont cfg fs 2 _ _ hstep1
    _ = prepareNextEvent cfg fs 1
          { s with streamReader :=
                     some { path := e2.path, headerCode := c2.headerCode, events := c2.events },
                   queue := rest, processedEventPerLs := 0,
                   openTrace := s.openTrace ++ [e2.path] } :=
        prepareNextEvent_cont cfg fs 1 _ _ hstep2
    _ = .ev ev { s with
          streamReader := some { path := e2.path, headerCode := c2.headerCode, events := evs },
          queue := rest, processedEventPerLs := 0,
          readTrace := s.readTrace ++ [ev],
          openTrace := s.openTrace ++ [e2.path] } :=
        prepareNextEvent_ev cfg fs 0 _ _ ev hstep3

/-- Filesystem for the C7 witness: only the second lumisection's data
file exists. -/
def fsC7 : FS := [("L2.dat", { headerCode := headerINIT, events := [evA 10, evA 11] })]

/-- Reader state for the C7 witness: no file open, the missing entry in
front of the available one. -/
def stC7 : ReaderState :=
  { streamReader := none,
    queue := [{ ls := 1, path := "L1.dat" }, { ls := 2, path := "L2.dat" }],
    fstate := FState.OPEN, processedEventPerLs := 0,
    readTrace := [], openTrace := [], deleted := [] }

/-- Witness for C7: the missing entry `L1.dat` is skipped and the first
event of `L2.dat` comes out, with the counter at 0. -/
theorem c7_missing_file_tolerated_witness :
    List.lookup "L1.dat" fsC7 = none ∧
    prepareNextEvent plainCfg fsC7 3 stC7 = .ev (evA 10)
      { stC7 with
          streamReader := some { path := "L2.dat", headerCode := headerINIT,
                                 events := [evA 11] },
          queue := [], processedEventPerLs := 0,
          readTrace := [evA 10], openTrace := ["L2.dat"] } :=
  ⟨rfl,
    c7_missing_file_tolerated plainCfg fsC7 stC7
      { ls := 1, path := "L1.dat" } { ls := 2, path := "L2.dat" } []
      { headerCode := headerINIT, events := [evA 10, evA 11] }
      (evA 10) [evA 11]
      rfl rfl (by decide) rfl rfl rfl rfl rfl rfl⟩

/-! ## C6 — EndOfStream is permanent and idempotent -/

/-- A state from which the wait loop returns the end-of-stream `nullptr`
at its very first iteration, forever: nothing is open, and either the
kill switch applies (run no longer OPEN with `endOfRunKills` set) or the
clean exit applies (no queued entries and end of run observed).  The file
iterator's run-level flag is monotone (OPEN → EOR happens once and is
never undone) and after EOR no new entries are appended, so a terminal
state stays terminal between calls. -/
def Terminal (cfg : Config) (s : ReaderState) : Prop :=
  s.streamReader = none ∧
  ((cfg.flagEndOfRunKills = true ∧ s.fstate ≠ FState.OPEN) ∨
   (s.queue = [] ∧ s.fstate = FState.EOR))

/-- From a terminal state every call of the wait loop returns
end-of-stream immediately, with the state unchanged. -/
theorem terminal_eos (cfg : Config) (fs : FS) (s : ReaderState)
    (ht : Terminal cfg s) :
    ∀ m : Nat, prepareNextEvent cfg fs (m + 1) s = .eos s := by
  intro m
  obtain ⟨hsr, hcase⟩ := ht
  by_cases hb1 : cfg.flagEndOfRunKills = true ∧ s.fstate ≠ FState.OPEN
  · have hstep : prepareStep cfg fs s = .ret none (closeFile s) := by
      unfold prepareStep
      rw [if_pos hb1]
    rw [prepareNextEvent_eosStep cfg fs m s (closeFile s) hstep, closeFile_of_none hsr]
  · have hr : s.queue = [] ∧ s.fstate = FState.EOR := hcase.resolve_left hb1
    have hstep : prepareStep cfg fs s = .ret none (closeFile s) := by
      unfold prepareStep
      rw [if_neg hb1, if_pos ⟨hsr, hr.1, hr.2⟩]
    rw [prepareNextEvent_eosStep cfg fs m s (closeFile s) hstep, closeFile_of_none hsr]

/-- Only the two terminal checks of the wait loop return the end-of-stream
`nullptr`, and the state they leave behind is terminal. -/
theorem prepareStep_retNone_terminal (cfg : Config) (fs : FS)
    (s s1 : ReaderState) (h : prepareStep cfg fs s = .ret none s1) :
    Terminal cfg s1 := by
  unfold prepareStep at h
  by_cases hb1 : cfg.flagEndOfRunKills = true ∧ s.fstate ≠ FState.OPEN
  · rw [if_pos hb1] at h
    injection h with hev hs
    subst hs
    exact ⟨rfl, Or.inl ⟨hb1.1, hb1.2⟩⟩
  · rw [if_neg hb1] at h
    by_cases hb2 : s.streamReader = none ∧ s.queue = [] ∧ s.fstate = FState.EOR
    · rw [if_pos hb2] at h
      injection h with hev hs
      subst hs
      exact ⟨rfl, Or.inr ⟨hb2.2.1, hb2.2.2⟩⟩
    · rw [if_neg hb2] at h
      by_cases hb3 : s.streamReader = none ∧ s.queue ≠ []
      · rw [if_pos hb3] at h
        split at h
        · simp at h
        · simp at h
      · rw [if_neg hb3] at h
        by_cases hb4 : s.queue ≠ [] ∧ s.processedEventPerLs > cfg.minEventsPerLs
        · rw [if_pos hb4] at h
          split at h
          · simp at h
          · simp at h
        · rw [if_neg hb4] at h
          split at h
          · simp at h
          · split at h
            · simp at h
            · simp at h

/-- Claim C6: once a `prepareNextEvent` call has returned the
end-of-stream `nullptr` (with any fuel, from any state), the state it
leaves behind has no open file, and every later call returns
end-of-stream again with that very same state — in particular no file is
ever reopened (the open trace cannot grow, since the state is returned
unchanged).  Between calls the file iterator cannot leave a terminal
state: its EOR flag is monotone and no entries appear after EOR
(modelled from the spec for the out-of-scope DQMFileIterator). -/
theorem c6_eos_idempotent (cfg : Config) (fs : FS) :
    ∀ (fuel : Nat) (s s1 : ReaderState),
      prepareNextEvent cfg fs fuel s = .eos s1 →
      s1.streamReader = none ∧
      ∀ m : Nat, prepareNextEvent cfg fs (m + 1) s1 = .eos s1 := by
  intro fuel
  induction fuel with
  | zero =>
    intro s s1 h
    simp [prepareNextEvent] at h
  | succ n ih =>
    intro s s1 h
    rw [prepareNextEvent_succ] at h
    cases hstep : prepareStep cfg fs s with
    | ret ev s2 =>
      rw [hstep] at h
      cases ev with
      | none =>
        simp at h
        rcases h with rfl
        have ht := prepareStep_retNone_terminal cfg fs s _ hstep
        exact ⟨ht.1, terminal_eos cfg fs _ ht⟩
      | some e => simp at h
    | cont s2 =>
      rw [hstep] at h
      simp at h
      exact ih s2 s1 h
    | fail e2 =>
      rw [hstep] at h
      simp at h

/-- Reader state for the C6 witness: clean end of run (nothing open, no
entries, EOR observed). -/
def stC6 : ReaderState :=
  { streamReader := none, queue := [], fstate := FState.EOR,
    processedEventPerLs := 4, readTrace := [evA 1], openTrace := ["x.dat"],
    deleted := [] }

/-- Witness for C6: after the end-of-stream return at `stC6`, a later
call (fuel 5) returns end-of-stream with the same state again. -/
theorem c6_eos_idempotent_witness :
    prepareNextEvent plainCfg [] 1 stC6 = .eos stC6 ∧
    stC6.streamReader = none ∧
    prepareNextEvent plainCfg [] 5 stC6 = .eos stC6 := by
  have h0 : prepareNextEvent plainCfg [] 1 stC6 = .eos stC6 := by decide
  exact ⟨h0, (c6_eos_idempotent plainCfg [] 1 stC6 stC6 h0).1,
    (c6_eos_idempotent plainCfg [] 1 stC6 stC6 h0).2 4⟩

/-! ## C4 / C10 — the skip loop -/

/-- Pump configuration for the skip scenarios: all switches off, the
external skip predicate `filt` installed. -/
def pumpCfg (filt : EventMsg → Bool) : Config :=
  { minEventsPerLs := 0, flagSkipFirstLumis := false, flagEndOfRunKills := false,
    flagDeleteDatFiles := false, skipper := some filt }

/-- Pump state: one file open with the remaining events `es`, nothing
queued, end of run observed, `tr` already consumed. -/
def pumpState (es tr : List EventMsg) : ReaderState :=
  { streamReader := some { path := "stream.dat", headerCode := headerINIT, events := es },
    queue := [], fstate := FState.EOR, processedEventPerLs := 0,
    readTrace := tr, openTrace := ["stream.dat"], deleted := [] }

/-- The pump state after its file has been drained and closed. -/
def drainedPumpState (tr : List EventMsg) : ReaderState :=
  { streamReader := none, queue := [], fstate := FState.EOR, processedEventPerLs := 0,
    readTrace := tr, openTrace := ["stream.dat"], deleted := [] }

/-- In the pump state with events left, one loop iteration returns the
next event. -/
theorem pumpStep_ev (filt : EventMsg → Bool) (fs : FS) (e : EventMsg)
    (es tr : List EventMsg) :
    prepareStep (pumpCfg filt) fs (pumpState (e :: es) tr) =
      .ret (some e) (pumpState es (tr ++ [e])) := by
  rw [prepareStep_read (pumpCfg filt) fs (pumpState (e :: es) tr)
        { path := "stream.dat", headerCode := headerINIT, events := e :: es }
        (by rintro ⟨hk, _⟩; simp [pumpCfg] at hk) rfl
        (by rintro ⟨hq, _⟩; exact hq rfl)]
  rfl

/-- In the pump state with the file exhausted, `prepareNextEvent` with
fuel 2 closes the file and returns end-of-stream. -/
theorem pump_eos (filt : EventMsg → Bool) (fs : FS) (tr : List EventMsg) :
    prepareNextEvent (pumpCfg filt) fs 2 (pumpState [] tr) =
      .eos (drainedPumpState tr) := by
  have h1 : prepareStep (pumpCfg filt) fs (pumpState [] tr) =
      .cont (drainedPumpState tr) := by
    rw [prepareStep_read (pumpCfg filt) fs (pumpState [] tr)
          { path := "stream.dat", headerCode := headerINIT, events := [] }
          (by rintro ⟨hk, _⟩; simp [pumpCfg] at hk) rfl
          (by rintro ⟨hq, _⟩; exact hq rfl)]
    rfl
  have h2 : prepareStep (pumpCfg filt) fs (drainedPumpState tr) =
      .ret none (drainedPumpState tr) := by
    unfold prepareStep
    rw [if_neg (by rintro ⟨hk, _⟩; simp [pumpCfg] at hk), if_pos ⟨rfl, rfl, rfl⟩]
    rfl
  calc prepareNextEvent (pumpCfg filt) fs 2 (pumpState [] tr)
      = prepareNextEvent (pumpCfg filt) fs 1 (drainedPumpState tr) :=
        prepareNextEvent_cont _ _ 1 _ _ h1
    _ = .eos (drainedPumpState tr) := prepareNextEvent_eosStep _ _ 0 _ _ h2

/-- Specification-side function: the exact list of event records the
skip loop consumes — the shortest stream front containing `n` records not
matched by the predicate, or the whole stream if it holds fewer. -/
def skipTaken (filt : EventMsg → Bool) : Nat → List EventMsg → List EventMsg
  | _, [] => []
  | 0, _ => []
  | n + 1, e :: es =>
    e :: (if filt e then skipTaken filt (n + 1) es else skipTaken filt n es)

/-- The consumed front contains `min n (available)` records not matched
by the predicate: filtered records never count against `n`. -/
theorem skipTaken_countP (filt : EventMsg → Bool) :
    ∀ (es : List EventMsg) (n : Nat),
      (skipTaken filt n es).countP (fun e => ! filt e) =
        min n (es.countP (fun e => ! filt e)) := by
  intro es
  induction es with
  | nil => intro n; simp [skipTaken]
  | cons e es2 ih =>
    intro n
    cases n with
    | zero => simp [skipTaken]
    | succ n2 =>
      by_cases hf : filt e
      · rw [show skipTaken filt (n2 + 1) (e :: es2) = e :: skipTaken filt (n2 + 1) es2
              from by simp [skipTaken, hf]]
        rw [List.countP_cons, List.countP_cons, ih (n2 + 1)]
        simp [hf]
      · rw [show skipTaken filt (n2 + 1) (e :: es2) = e :: skipTaken filt n2 es2
              from by simp [skipTaken, hf]]
        rw [List.countP_cons, List.countP_cons, ih n2]
        simp only [Bool.not_eq_true] at hf
        simp [hf]
        omega

/-- One unfolding of the skip loop at positive fuel. -/
theorem skipLoop_succ (cfg : Config) (fs : FS) (pfuel fuel : Nat)
    (i toSkip : Int) (s : ReaderState) :
    skipLoop cfg fs pfuel (fuel + 1) i toSkip s =
      if i = toSkip then .done s
      else
        match prepareNextEvent cfg fs pfuel s with
        | .ev e s1 =>
          skipLoop cfg fs pfuel fuel (if cfg.skipIt e then i else i + 1) toSkip s1
        | .eos s1 => .done s1
        | .fail err => .fail err
        | .spin s1 => .spin s1 := rfl

/-- One iteration of the skip loop that consumes an event. -/
theorem skipLoop_ev (cfg : Config) (fs : FS) (pfuel fuel : Nat)
    (i toSkip : Int) (s : ReaderState) (e : EventMsg) (s1 : ReaderState)
    (hne : i ≠ toSkip)
    (h : prepareNextEvent cfg fs pfuel s = .ev e s1) :
    skipLoop cfg fs pfuel (fuel + 1) i toSkip s =
      skipLoop cfg fs pfuel fuel (if cfg.skipIt e then i else i + 1) toSkip s1 := by
  rw [skipLoop_succ, if_neg hne, h]

/-- One iteration of the skip loop that sees end-of-stream and returns. -/
theorem skipLoop_eos (cfg : Config) (fs : FS) (pfuel fuel : Nat)
    (i toSkip : Int) (s s1 : ReaderState)
    (hne : i ≠ toSkip)
    (h : prepareNextEvent cfg fs pfuel s = .eos s1) :
    skipLoop cfg fs pfuel (fuel + 1) i toSkip s = .done s1 := by
  rw [skipLoop_succ, if_neg hne, h]

/-- The skip loop returns as soon as its counter equals the target. -/
theorem skipLoop_hit (cfg : Config) (fs : FS) (pfuel fuel : Nat)
    (i : Int) (s : ReaderState) :
    skipLoop cfg fs pfuel (fuel + 1) i i s = .done s := by
  rw [skipLoop_succ, if_pos rfl]

/-- Behaviour of the skip loop over the pump state, counting up from `i`
to `i + r`: it consumes exactly the records of `skipTaken filt r es`. -/
theorem skipLoop_pump (filt : EventMsg → Bool) (fs : FS) :
    ∀ (es : List EventMsg) (r : Nat) (i : Int) (tr : List EventMsg),
      ∃ s1, skipLoop (pumpCfg filt) fs 2 (es.length + 1) i (i + (r : Int))
          (pumpState es tr) = .done s1 ∧
        s1.readTrace = tr ++ skipTaken filt r es := by
  intro es
  induction es with
  | nil =>
    intro r i tr
    cases r with
    | zero =>
      refine ⟨pumpState [] tr, ?_, by simp [skipTaken, pumpState]⟩
      rw [show i + ((0 : Nat) : Int) = i from by push_cast; omega]
      exact skipLoop_hit _ fs 2 _ i _
    | succ r2 =>
      refine ⟨drainedPumpState tr, ?_, by simp [skipTaken, drainedPumpState]⟩
      exact skipLoop_eos _ fs 2 _ i _ _ _ (by push_cast; omega) (pump_eos filt fs tr)
  | cons e es2 ih =>
    intro r i tr
    cases r with
    | zero =>
      refine ⟨pumpState (e :: es2) tr, ?_, by simp [skipTaken, pumpState]⟩
      rw [show i + ((0 : Nat) : Int) = i from by push_cast; omega]
      exact skipLoop_hit _ fs 2 _ i _
    | succ r2 =>
      have hpe : prepareNextEvent (pumpCfg filt) fs 2 (pumpState (e :: es2) tr) =
          .ev e (pumpState es2 (tr ++ [e])) :=
        prepareNextEvent_ev _ _ 1 _ _ e (pumpStep_ev filt fs e es2 tr)
      by_cases hf : filt e
      · obtain ⟨s1, hrec, htr⟩ := ih (r2 + 1) i (tr ++ [e])
        refine ⟨s1, ?_, ?_⟩
        · rw [skipLoop_ev (pumpCfg filt) fs 2 _ i _ _ e _ (by push_cast; omega) hpe,
              show (if (pumpCfg filt).skipIt e = true then i else i + 1) = i from
                by simp [Config.skipIt, pumpCfg, hf]]
          exact hrec
        · rw [htr]
          simp [skipTaken, hf]
      · obtain ⟨s1, hrec, htr⟩ := ih r2 (i + 1) (tr ++ [e])
        refine ⟨s1, ?_, ?_⟩
        · rw [skipLoop_ev (pumpCfg filt) fs 2 _ i _ _ e _ (by push_cast; omega) hpe,
              show (if (pumpCfg filt).skipIt e = true then i else i + 1) = i + 1 from
                by simp [Config.skipIt, pumpCfg, hf],
              show i + ((r2 + 1 : Nat) : Int) = (i + 1) + (r2 : Int) from
                by push_cast; omega]
          exact hrec
        · rw [htr]
          simp [skipTaken, hf]

/-- Filter of the concrete skip scenario: event ids 5 and 9. -/
def filtC4 : EventMsg → Bool := fun e => e.event == 5 || e.event == 9

/-- Stream of the concrete skip scenario. -/
def esC4 : List EventMsg := [evA 1, evA 2, evA 5, evA 3, evA 9, evA 4]

/-- Claim C4: `skip(n)` (for `n ≥ 0`, here `n : Nat`) consumes records
from the stream until exactly `n` of them are not matched by the external
skip predicate, or until end-of-stream: the consumed records are exactly
`skipTaken filt n es`, whose count of unfiltered records is
`min n (available)` — a filtered record never counts against `n`.  In
particular, with the predicate filtering ids {5, 9} over the stream
[1,2,5,3,9,4], `skip(3)` consumes exactly the 4 records 1, 2, 5, 3. -/
theorem c4_skip_compensates (filt : EventMsg → Bool) (n : Nat)
    (es : List EventMsg) :
    (∃ s1, skip (pumpCfg filt) [] 2 (es.length + 1) (n : Int) (pumpState es []) =
        .done s1 ∧ s1.readTrace = skipTaken filt n es) ∧
    (skipTaken filt n es).countP (fun e => ! filt e) =
      min n (es.countP (fun e => ! filt e)) ∧
    skip (pumpCfg filtC4) [] 2 7 3 (pumpState esC4 []) =
      .done (pumpState [evA 9, evA 4] [evA 1, evA 2, evA 5, evA 3]) ∧
    skipTaken filtC4 3 esC4 = [evA 1, evA 2, evA 5, evA 3] := by
  refine ⟨?_, skipTaken_countP filt es n, by decide, by decide⟩
  obtain ⟨s1, hrec, htr⟩ := skipLoop_pump filt [] es n 0 []
  refine ⟨s1, ?_, by simpa using htr⟩
  unfold skip
  rw [show (n : Int) = 0 + (n : Int) from by omega]
  exact hrec

/-- The reader state while the run is live with no data: nothing open,
nothing queued, run still OPEN. -/
def liveIdleState : ReaderState :=
  { streamReader := none, queue := [], fstate := FState.OPEN,
    processedEventPerLs := 0, readTrace := [], openTrace := [], deleted := [] }

/-- While the run is live with no data the wait loop only delays: it
never returns, whatever the fuel. -/
theorem prepareStep_idle (cfg : Config) (fs : FS) :
    prepareStep cfg fs liveIdleState = .cont liveIdleState := by
  unfold prepareStep
  rw [if_neg (by rintro ⟨_, hk⟩; exact hk rfl),
      if_neg (by rintro ⟨_, _, hk⟩; simp [liveIdleState] at hk),
      if_neg (by rintro ⟨_, hk⟩; exact hk rfl),
      if_neg (by rintro ⟨hk, _⟩; exact hk rfl)]
  rfl

/-- `prepareNextEvent` spins forever on the live idle state. -/
theorem prepareNextEvent_idle (cfg : Config) (fs : FS) :
    ∀ fuel : Nat, prepareNextEvent cfg fs fuel liveIdleState = .spin liveIdleState := by
  intro fuel
  induction fuel with
  | zero => rfl
  | succ n ih =>
    rw [prepareNextEvent_cont cfg fs n _ _ (prepareStep_idle cfg fs)]
    exact ih

/-- The skip loop with a negative target never reaches it: starting from
any `i ≥ 0` it consumes the entire available stream and only stops at
end-of-stream. -/
theorem skipLoop_pump_neg (filt : EventMsg → Bool) (fs : FS) (toSkip : Int)
    (hneg : toSkip < 0) :
    ∀ (es : List EventMsg) (i : Int), 0 ≤ i → ∀ tr : List EventMsg,
      skipLoop (pumpCfg filt) fs 2 (es.length + 1) i toSkip (pumpState es tr) =
        .done (drainedPumpState (tr ++ es)) := by
  intro es
  induction es with
  | nil =>
    intro i hi tr
    rw [skipLoop_eos _ fs 2 _ i _ _ _ (by omega) (pump_eos filt fs tr)]
    simp
  | cons e es2 ih =>
    intro i hi tr
    rw [skipLoop_ev (pumpCfg filt) fs 2 _ i _ _ e _ (by omega)
          (prepareNextEvent_ev _ _ 1 _ _ e (pumpStep_ev filt fs e es2 tr))]
    by_cases hf : filt e
    · rw [show (if (pumpCfg filt).skipIt e = true then i else i + 1) = i from
            by simp [Config.skipIt, pumpCfg, hf]]
      have hrec := ih i hi (tr ++ [e])
      rw [show (tr ++ [e]) ++ es2 = tr ++ e :: es2 from by simp] at hrec
      exact hrec
    · rw [show (if (pumpCfg filt).skipIt e = true then i else i + 1) = i + 1 from
            by simp [Config.skipIt, pumpCfg, hf]]
      have hrec := ih (i + 1) (by omega) (tr ++ [e])
      rw [show (tr ++ [e]) ++ es2 = tr ++ e :: es2 from by simp] at hrec
      exact hrec

/-- Claim C10: for a negative target `toSkip < 0` the skip loop's counter
(starting at 0 and never going below 0 at a loop test) never equals the
target, so the count-based exit never fires.  Over any finite available
stream the loop therefore consumes every record and returns only via
end-of-stream; and while the run is live (state OPEN) with no data the
loop never returns at all — it spins for every fuel bound. -/
theorem c10_skip_negative_diverges (toSkip : Int) (hneg : toSkip < 0) :
    (∀ (filt : EventMsg → Bool) (es tr : List EventMsg),
      skip (pumpCfg filt) [] 2 (es.length + 1) toSkip (pumpState es tr) =
        .done (drainedPumpState (tr ++ es))) ∧
    (∀ (cfg : Config) (fs : FS) (pfuel fuel : Nat),
      skip cfg fs pfuel fuel toSkip liveIdleState = .spin liveIdleState) := by
  constructor
  · intro filt es tr
    exact skipLoop_pump_neg filt [] toSkip hneg es 0 (by omega) tr
  · intro cfg fs pfuel fuel
    cases fuel with
    | zero => rfl
    | succ n =>
      unfold skip skipLoop
      rw [if_neg (by omega), prepareNextEvent_idle cfg fs pfuel]

/-- Witness for C10 at `toSkip = -1`: the whole 6-record stream is
consumed, and on the live idle state the call spins at fuel 5. -/
theorem c10_skip_negative_diverges_witness :
    (-1 : Int) < 0 ∧
    skip (pumpCfg filtC4) [] 2 7 (-1) (pumpState esC4 []) =
      .done (drainedPumpState esC4) ∧
    skip plainCfg [] 2 5 (-1) liveIdleState = .spin liveIdleState := by
  have h := c10_skip_negative_diverges (-1) (by omega)
  exact ⟨by omega, by simpa using h.1 filtC4 esC4 [], h.2 plainCfg [] 2 5⟩

/-! ## C5 — skipFirstLumis fast-forwards to the last known lumisection -/

/-- The reader state right after `fiterator_.initialise`: nothing open,
the already-known lumi entries queued, nothing read. -/
def initState (entries : List LumiEntry) : ReaderState :=
  { streamReader := none, queue := entries, fstate := FState.OPEN,
    processedEventPerLs := 0, readTrace := [], openTrace := [], deleted := [] }

/-- The state after the first loop of `reset_` has opened the first
queued entry `e0` (content `c0`); `dl2` is whatever the `deleted` trace
became. -/
def afterFirstOpen (e0 : LumiEntry) (rest : List LumiEntry) (c0 : FileContent)
    (dl2 : List String) : ReaderState :=
  { streamReader := some { path := e0.path, headerCode := c0.headerCode, events := c0.events },
    queue := rest, fstate := FState.OPEN, processedEventPerLs := 0,
    readTrace := [], openTrace := [e0.path], deleted := dl2 }

/-- One unfolding of the first loop of `reset_` at positive fuel. -/
theorem resetLoop_succ (cfg : Config) (fs : FS) (fuel : Nat) (s : ReaderState) :
    resetLoop cfg fs (fuel + 1) s =
      if s.queue = [] then resetLoop cfg fs fuel s
      else
        match openNextFile cfg fs s with
        | .error e => .fail e
        | .ok (true, s1) => .opened s1
        | .ok (false, s1) => resetLoop cfg fs fuel s1 := rfl

/-- One unfolding of the fast-forward loop at positive fuel. -/
theorem fastForward_succ (cfg : Config) (fs : FS) (fuel : Nat) (s : ReaderState) :
    fastForward cfg fs (fuel + 1) s =
      if s.queue = [] then .ok s
      else
        match openNextFile cfg fs s with
        | .error e => .error e
        | .ok (_, s1) => fastForward cfg fs fuel s1 := rfl

/-- `reset_` after its first loop has opened a file. -/
theorem reset_opened (cfg : Config) (fs : FS) (fuel : Nat) (s S1 : ReaderState)
    (h : resetLoop cfg fs fuel s = .opened S1) :
    reset cfg fs fuel s =
      if cfg.flagSkipFirstLumis then
        match fastForward cfg fs S1.queue.length S1 with
        | .error e => .fail e
        | .ok s2 => .opened s2
      else .opened S1 := by
  unfold reset
  rw [h]

/-- The fast-forward loop over a fully available backlog: it pops and
opens every queued entry in turn, reads no event (`readTrace` is
untouched), and leaves the LAST entry's file open. -/
theorem fastForward_spec (cfg : Config) (fs : FS) :
    ∀ (entries : List LumiEntry) (s : ReaderState),
      s.queue = entries →
      (∀ e ∈ entries, ∃ c, List.lookup e.path fs = some c ∧ c.headerCode = headerINIT) →
      ∃ s2, fastForward cfg fs entries.length s = .ok s2 ∧
        s2.queue = [] ∧ s2.readTrace = s.readTrace ∧
        ((entries = [] ∧ s2 = s) ∨
          ∃ (e3 : LumiEntry) (c : FileContent),
            entries.getLast? = some e3 ∧
            List.lookup e3.path fs = some c ∧
            s2.streamReader =
              some { path := e3.path, headerCode := c.headerCode, events := c.events }) := by
  intro entries
  induction entries with
  | nil =>
    intro s hq _
    exact ⟨s, rfl, hq, rfl, Or.inl ⟨rfl, rfl⟩⟩
  | cons e rest ih =>
    intro s hq havail
    obtain ⟨c, hl, hinit⟩ := havail e (List.mem_cons_self _ _)
    obtain ⟨dl2, hop⟩ := openNextFile_found cfg fs s e rest c hq hl hinit
    obtain ⟨s2, hff2, hq2, hrt2, hlast⟩ := ih
      { s with
        streamReader := some { path := e.path, headerCode := c.headerCode, events := c.events },
        queue := rest, processedEventPerLs := 0,
        openTrace := s.openTrace ++ [e.path], deleted := dl2 } rfl
      (fun e2 he2 => havail e2 (List.mem_cons_of_mem _ he2))
    have hff1 : fastForward cfg fs (e :: rest).length s =
        fastForward cfg fs rest.length
          { s with
            streamReader := some { path := e.path, headerCode := c.headerCode, events := c.events },
            queue := rest, processedEventPerLs := 0,
            openTrace := s.openTrace ++ [e.path], deleted := dl2 } := by
      rw [show (e :: rest).length = rest.length + 1 from rfl, fastForward_succ,
          if_neg (by rw [hq]; simp), hop]
    refine ⟨s2, by rw [hff1]; exact hff2, hq2, hrt2, ?_⟩
    rcases hlast with ⟨hre, hs2⟩ | ⟨e3, c3, hg3, hl3, hsr3⟩
    · subst hre
      refine Or.inr ⟨e, c, by simp, hl, ?_⟩
      rw [hs2]
    · refine Or.inr ⟨e3, c3, ?_, hl3, hsr3⟩
      cases rest with
      | nil => simp at hg3
      | cons b l =>
        rw [List.getLast?_cons_cons]
        exact hg3

/-- Claim C5: with `skipFirstLumis = true` and a non-empty backlog of
already-known lumisections whose data files all exist with INIT headers,
`reset_` ends with the LAST queued lumisection's file open for event
extraction (all of its events still unread), the queue exhausted, and
zero events read from any file — in particular zero events from every
earlier queued lumisection. -/
theorem c5_skipFirstLumis_fast_forward
    (cfg : Config) (fs : FS) (e0 : LumiEntry) (rest : List LumiEntry)
    (hskip : cfg.flagSkipFirstLumis = true)
    (havail : ∀ e ∈ (e0 :: rest), ∃ c, List.lookup e.path fs = some c ∧
        c.headerCode = headerINIT) :
    ∃ s2 e3 c, reset cfg fs 1 (initState (e0 :: rest)) = .opened s2 ∧
      (e0 :: rest).getLast? = some e3 ∧
      List.lookup e3.path fs = some c ∧
      s2.streamReader =
        some { path := e3.path, headerCode := c.headerCode, events := c.events } ∧
      s2.readTrace = [] ∧ s2.queue = [] := by
  obtain ⟨c0, hl0, hinit0⟩ := havail e0 (List.mem_cons_self _ _)
  obtain ⟨dl2, hop⟩ :=
    openNextFile_found cfg fs (initState (e0 :: rest)) e0 rest c0 rfl hl0 hinit0
  have hop2 : openNextFile cfg fs (initState (e0 :: rest)) =
      .ok (true, afterFirstOpen e0 rest c0 dl2) := hop
  have hrl : resetLoop cfg fs 1 (initState (e0 :: rest)) =
      .opened (afterFirstOpen e0 rest c0 dl2) := by
    rw [resetLoop_succ, if_neg (by simp [initState]), hop2]
  obtain ⟨s2, hff, hq2, hrt2, hlast⟩ := fastForward_spec cfg fs rest
    (afterFirstOpen e0 rest c0 dl2) rfl
    (fun e2 he2 => havail e2 (List.mem_cons_of_mem _ he2))
  have hffX : fastForward cfg fs (afterFirstOpen e0 rest c0 dl2).queue.length
      (afterFirstOpen e0 rest c0 dl2) = .ok s2 := hff
  have hre : reset cfg fs 1 (initState (e0 :: rest)) = .opened s2 := by
    rw [reset_opened cfg fs 1 _ _ hrl, if_pos hskip, hffX]
  rcases hlast with ⟨hrnil, hs2⟩ | ⟨e3, c3, hg3, hl3, hsr3⟩
  · subst hrnil
    refine ⟨s2, e0, c0, hre, by simp, hl0, ?_, hrt2, hq2⟩
    rw [hs2]
    rfl
  · refine ⟨s2, e3, c3, hre, ?_, hl3, hsr3, hrt2, hq2⟩
    cases rest with
    | nil => simp at hg3
    | cons b l =>
      rw [List.getLast?_cons_cons]
      exact hg3

/-- Filesystem for the C5 witness: three announced lumisections, all
data files present with INIT headers. -/
def fsC5 : FS :=
  [("L1.dat", { headerCode := headerINIT, events := [evA 1] }),
   ("L2.dat", { headerCode := headerINIT, events := [evA 2] }),
   ("L3.dat", { headerCode := headerINIT, events := [evA 3, evA 4] })]

/-- Configuration for the C5 witness: `skipFirstLumis = true`. -/
def cfgC5 : Config := { plainCfg with flagSkipFirstLumis := true }

/-- Witness for C5 with three already-queued lumisections: the reset
fast-forwards to `L3.dat`. -/
theorem c5_skipFirstLumis_fast_forward_witness :
    cfgC5.flagSkipFirstLumis = true ∧
    ∃ s2 e3 c,
      reset cfgC5 fsC5 1 (initState
        [{ ls := 1, path := "L1.dat" }, { ls := 2, path := "L2.dat" },
         { ls := 3, path := "L3.dat" }]) = .opened s2 ∧
      ([{ ls := 1, path := "L1.dat" }, { ls := 2, path := "L2.dat" },
        { ls := 3, path := "L3.dat" }] : List LumiEntry).getLast? = some e3 ∧
      List.lookup e3.path fsC5 = some c ∧
      s2.streamReader =
        some { path := e3.path, headerCode := c.headerCode, events := c.events } ∧
      s2.readTrace = [] ∧ s2.queue = [] :=
  ⟨rfl,
    c5_skipFirstLumis_fast_forward cfgC5 fsC5 { ls := 1, path := "L1.dat" }
      [{ ls := 2, path := "L2.dat" }, { ls := 3, path := "L3.dat" }] rfl
      (by
        intro e he
        simp only [List.mem_cons, List.not_mem_nil, or_false] at he
        rcases he with rfl | rfl | rfl
        · exact ⟨_, rfl, rfl⟩
        · exact ⟨_, rfl, rfl⟩
        · exact ⟨_, rfl, rfl⟩)⟩

end DQMStreamer
